import Mathlib

/-!
Verification of the pushover-notify scheduling engine and persistent store.

The development is a shallow embedding of the Go sources:
* `internal/model` (the `Notification` / `Settings` / `AppSchema` records,
  with `SendStatus` being a string type);
* `internal/worker` (the event-driven worker: `checkAndProcess`, the
  `Refresh` wake channel, and the timer arming logic of `Start`);
* `internal/storage` (the JSON file store: `Load`, `CheckDiskChanges`,
  the read accessors and the id-keyed mutators).

Instants (`time.Time`) are modelled as integers counting nanoseconds from
Go's zero time; `time.Duration` values are 64-bit integers, so duration
arithmetic that can overflow in Go is modelled with explicit two's
complement wrap-around (`wrap64`).  The JSON parser and `time.ParseDuration`
belong to the Go standard library, not to this repository; they are
treated as oracle inputs: a disk file carries its possible parse results,
and the worker is parameterised by a `ParseDur` function.
-/

namespace PushoverNotify

/-! ## Data model (internal/model) -/

/-- `model.SendStatus` is a Go string type; `StatusPending = "Pending"`. -/
def statusPending : String := "Pending"

/-- `model.StatusDone = "Done"`. -/
def statusDone : String := "Done"

/-- `model.Notification`.  `scheduledTime` and `lastPushTime` are instants
in nanoseconds from Go's zero time (`time.Time` zero value is `0`). -/
structure Notification where
  id : String
  content : String
  scheduledTime : Int
  status : String
  sendsCount : Int
  lastPushTime : Int
  repeatTimes : Int
  repeatInterval : String
deriving DecidableEq

/-- `model.Settings`. -/
structure Settings where
  pushoverToken : String
  pushoverUser : String
  repeatTimes : Int
  repeatInterval : String
  password : String
deriving DecidableEq

/-- `model.AppSchema`. -/
structure AppSchema where
  settings : Settings
  notifications : List Notification
deriving DecidableEq

/-! ## Go time and duration arithmetic -/

/-- Nanoseconds in one minute (`time.Minute`). -/
def nsMin : Int := 60 * 1000000000

/-- `2 ^ 63`, the magnitude bound of Go's `int64` / `time.Duration`. -/
def int64Half : Int := 9223372036854775808

/-- `2 ^ 64`. -/
def int64Size : Int := 18446744073709551616

/-- Two's complement wrap-around of a 64-bit signed integer, as performed
by Go on `int64` overflow. -/
def wrap64 (x : Int) : Int :=
  (x + int64Half) % int64Size - int64Half

/-- `time.Duration` multiplication `d * time.Duration(k)`: int64 product
with wrap-around. -/
def durMul (d k : Int) : Int := wrap64 (d * k)

/-- `t.Truncate(time.Minute)`: round the instant down to a multiple of a
minute since the zero time. -/
def truncMin (t : Int) : Int := t - t % nsMin

/-- `t.Sub(u)` (`time.Time.Sub`): the difference saturated to the
`int64` range of `time.Duration`. -/
def durSub (t u : Int) : Int :=
  if t - u < -int64Half then -int64Half
  else if int64Half - 1 < t - u then int64Half - 1
  else t - u

/-! ## Worker (internal/worker)

`time.ParseDuration` is an external stdlib function; the worker model is
parameterised by it.  `pd s = some d` means the string parses to `d`
nanoseconds, `pd s = none` means `ParseDuration` returns an error. -/

def ParseDur : Type := String → Option Int

/-- Effective repeat interval used by `checkAndProcess`:
`time.ParseDuration(n.RepeatInterval)`, falling back to the hardcoded
`30 * time.Minute` when parsing fails. -/
def effInterval (pd : ParseDur) (n : Notification) : Int :=
  match pd n.repeatInterval with
  | some d => d
  | none => 30 * nsMin

/-- Effective repeat count used by `checkAndProcess`: `n.RepeatTimes`,
falling back to the hardcoded `3` when it is zero. -/
def effRepeat (n : Notification) : Int :=
  if n.repeatTimes = 0 then 3 else n.repeatTimes

/-- The anchored due instant computed inside the `checkAndProcess` loop:
`ScheduledTime.Truncate(Minute)` for a first attempt, otherwise
`ScheduledTime.Truncate(Minute).Add(repeatInterval * Duration(SendsCount))`. -/
def nextSendTime (pd : ParseDur) (n : Notification) : Int :=
  if n.sendsCount = 0 then truncMin n.scheduledTime
  else truncMin n.scheduledTime + durMul (effInterval pd n) n.sendsCount

/-- Result of processing one pending notification in the loop body:
the (possibly mutated) record, whether `saveNeeded` was set, and the
candidate folded into `earliestNext` (if any). -/
structure ProcResult where
  notif : Notification
  dirty : Bool
  candidate : Option Int
deriving DecidableEq

/-- Loop body of `checkAndProcess` for a single pending notification.
`send n` is the outcome of `client.SendMessage` for this attempt
(`true` = success). -/
def processOne (pd : ParseDur) (send : Notification → Bool) (now : Int)
    (n : Notification) : ProcResult :=
  let repInt := effInterval pd n
  let repTimes := effRepeat n
  let nst := nextSendTime pd n
  if now < nst then
    ProcResult.mk n false (some nst)
  else
    let n1 :=
      if n.sendsCount < repTimes then
        if send n then
          { n with sendsCount := n.sendsCount + 1, lastPushTime := now }
        else
          { n with lastPushTime := now }
      else n
    if repTimes ≤ n1.sendsCount then
      ProcResult.mk { n1 with status := statusDone } true none
    else
      ProcResult.mk n1 (decide (n.sendsCount < repTimes))
        (some (truncMin n1.scheduledTime + durMul repInt n1.sendsCount))

/-- The `earliestNext` accumulation: the zero time is the "no candidate"
sentinel (`time.Time.IsZero`), a candidate replaces the accumulator when
the accumulator is the sentinel or the candidate is strictly earlier. -/
def foldCand (e : Int) (c : Option Int) : Int :=
  match c with
  | none => e
  | some t => if e = 0 ∨ t < e then t else e

/-- The full loop of `checkAndProcess` over the notification list: Done
records are skipped (the `GetPending` filter), pending records are
processed in collection order; accumulates `saveNeeded` and
`earliestNext`.  Returns the updated list (the Go code mutates the
records in place through shared pointers). -/
def passList (pd : ParseDur) (send : Notification → Bool) (now : Int) :
    List Notification → Bool → Int → List Notification × Bool × Int
  | [], dirty, e => ([], dirty, e)
  | n :: rest, dirty, e =>
    if n.status ≠ statusDone then
      let r := processOne pd send now n
      let t := passList pd send now rest (dirty || r.dirty) (foldCand e r.candidate)
      (r.notif :: t.1, t.2)
    else
      let t := passList pd send now rest dirty e
      (n :: t.1, t.2)

/-- `Worker.checkAndProcess`: with missing credentials return the zero
time (idle) without touching any notification; otherwise run the pass.
Returns the updated schema, whether a save was triggered (`saveNeeded`),
and the returned `earliestNext` (zero = "no pending work"). -/
def checkAndProcess (pd : ParseDur) (send : Notification → Bool) (now : Int)
    (s : AppSchema) : AppSchema × Bool × Int :=
  if s.settings.pushoverToken = "" ∨ s.settings.pushoverUser = "" then
    (s, false, 0)
  else
    let r := passList pd send now s.notifications false 0
    ({ s with notifications := r.1 }, r.2)

/-- Timer arming in `Worker.Start`: a zero `nextRun` disarms the timer
(`none`); otherwise the timer is reset to `max 0 (nextRun - now)`. -/
def armDuration (nextRun now : Int) : Option Int :=
  if nextRun = 0 then none
  else some (if durSub nextRun now < 0 then 0 else durSub nextRun now)

/-- `Worker.Refresh`: non-blocking send on the 1-buffered `updateChan`;
when the slot is already occupied the `default` branch drops the signal. -/
def refreshChan (slot : Bool) : Bool :=
  if slot then slot else true

/-- `k` consecutive `Refresh` calls starting from channel state `s`. -/
def refreshN : Nat → Bool → Bool
  | 0, s => s
  | Nat.succ k, s => refreshN k (refreshChan s)

/-- Number of wake signals the loop's `select` will consume from the
channel state: one if the slot is occupied, none otherwise. -/
def wakeCount (slot : Bool) : Nat :=
  if slot then 1 else 0

/-! ## Persistent store (internal/storage)

The store state is the in-memory `Data` schema plus `lastLoadedTime` (the
modification time recorded at the last load or save; Go zero time = 0).
The backing file is an oracle: `Disk.file mtime empty asSchema asList`
carries the file's modification time, whether its content is empty, and
the results of `json.Unmarshal` into an `AppSchema` and into a bare
`[]*Notification` respectively.  `Disk.absent` is a missing file (both
`os.Stat` and `os.ReadFile` fail with not-exist); `Disk.unreadable` is a
file that stats but fails to read. -/

structure StoreState where
  data : AppSchema
  lastLoadedTime : Int
deriving DecidableEq

inductive Disk where
  | absent : Disk
  | unreadable : Int → Disk
  | file : Int → Bool → Option AppSchema → Option (List Notification) → Disk

/-- The default settings used by `Load` for missing/empty/legacy files:
`model.Settings{RepeatTimes: 3, RepeatInterval: "30m"}` (all other fields
are Go zero values). -/
def defaultSettings : Settings :=
  Settings.mk "" "" 3 "30m" ""

/-- The post-parse default/backfill block of `Store.Load`: settings-level
defaults, then per-notification backfill of zero `RepeatTimes` / empty
`RepeatInterval` from the (re-defaulted) global settings values. -/
def backfill (a : AppSchema) : AppSchema :=
  let s1 := { a.settings with
    repeatTimes := if a.settings.repeatTimes = 0 then 3 else a.settings.repeatTimes,
    repeatInterval := if a.settings.repeatInterval = "" then "30m" else a.settings.repeatInterval }
  let gT := if s1.repeatTimes = 0 then 3 else s1.repeatTimes
  let gI := if s1.repeatInterval = "" then "30m" else s1.repeatInterval
  AppSchema.mk s1 (a.notifications.map (fun n =>
    { n with
      repeatTimes := if n.repeatTimes = 0 then gT else n.repeatTimes,
      repeatInterval := if n.repeatInterval = "" then gI else n.repeatInterval }))

/-- `Store.Load`.  Returns the updated store state and whether the load
succeeded (`true` = `nil` error).  `os.Stat` success records the file's
modification time before reading; a missing file or empty file installs
an empty schema with default settings; an unparseable file falls back to
the legacy bare-list parse and, on success, wraps the list with default
settings and returns at once (before the backfill block); only when both
parses fail is an error returned.  (On the error paths the in-memory
data is modelled as unchanged.) -/
def loadStore (st : StoreState) (d : Disk) : StoreState × Bool :=
  match d with
  | Disk.absent =>
    ({ st with data := AppSchema.mk defaultSettings [] }, true)
  | Disk.unreadable m =>
    ({ st with lastLoadedTime := m }, false)
  | Disk.file m e sch lst =>
    let st1 := { st with lastLoadedTime := m }
    if e then ({ st1 with data := AppSchema.mk defaultSettings [] }, true)
    else
      match sch with
      | some a => ({ st1 with data := backfill a }, true)
      | none =>
        match lst with
        | some l => ({ st1 with data := AppSchema.mk defaultSettings l }, true)
        | none => (st1, false)

/-- `Store.CheckDiskChanges`: a stat failure returns at once; otherwise
reload when the file's modification time is strictly newer than
`lastLoadedTime`.  The `Load` error, if any, is ignored. -/
def checkDiskChanges (st : StoreState) (d : Disk) : StoreState :=
  match d with
  | Disk.absent => st
  | Disk.unreadable m =>
    if st.lastLoadedTime < m then (loadStore st (Disk.unreadable m)).1 else st
  | Disk.file m e sch lst =>
    if st.lastLoadedTime < m then (loadStore st (Disk.file m e sch lst)).1 else st

/-- `Store.GetSettings`: runs the disk-change check, then returns the
settings snapshot. -/
def getSettings (st : StoreState) (d : Disk) : StoreState × Settings :=
  let st1 := checkDiskChanges st d
  (st1, st1.data.settings)

/-- `Store.GetAllNotifications`: runs the disk-change check, then returns
a copy of the notification list. -/
def getAllNotifications (st : StoreState) (d : Disk) : StoreState × List Notification :=
  let st1 := checkDiskChanges st d
  (st1, st1.data.notifications)

/-- The pending filter of `Store.GetPending`: records whose status is not
`"Done"`. -/
def pendingOf (a : AppSchema) : List Notification :=
  a.notifications.filter (fun n => decide (n.status ≠ statusDone))

/-- `Store.GetPending`: runs the disk-change check, then returns the
non-Done records. -/
def getPending (st : StoreState) (d : Disk) : StoreState × List Notification :=
  let st1 := checkDiskChanges st d
  (st1, pendingOf st1.data)

/-- `Store.GetNotification`: linear scan for the first record with the
given id; `none` models the `"notification not found"` error.  Note: the
Go method does not invoke `CheckDiskChanges`, so the disk argument is
unused and the state is returned untouched. -/
def getNotification (st : StoreState) (_d : Disk) (i : String) :
    StoreState × Option Notification :=
  (st, st.data.notifications.find? (fun n => n.id == i))

/-- The in-place replacement loop of `Store.UpdateNotification`: replace
the first record whose id matches, reporting whether one was found. -/
def replaceById : List Notification → Notification → List Notification × Bool
  | [], _ => ([], false)
  | n :: rest, u =>
    if n.id == u.id then (u :: rest, true)
    else
      let r := replaceById rest u
      (n :: r.1, r.2)

/-- `Store.UpdateNotification`: returns the new state, whether `Save` was
invoked, and whether the id was found (`false` = the not-found error). -/
def updateNotification (st : StoreState) (u : Notification) :
    StoreState × Bool × Bool :=
  let r := replaceById st.data.notifications u
  if r.2 then
    ({ st with data := { st.data with notifications := r.1 } }, true, true)
  else
    ({ st with data := { st.data with notifications := r.1 } }, false, false)

/-- The removal loop of `Store.DeleteNotification`: drop the first record
whose id matches, reporting whether one was found. -/
def removeById : List Notification → String → List Notification × Bool
  | [], _ => ([], false)
  | n :: rest, i =>
    if n.id == i then (rest, true)
    else
      let r := removeById rest i
      (n :: r.1, r.2)

/-- `Store.DeleteNotification`: returns the new state, whether `Save` was
invoked, and whether the id was found (`false` = the not-found error). -/
def deleteNotification (st : StoreState) (i : String) :
    StoreState × Bool × Bool :=
  let r := removeById st.data.notifications i
  if r.2 then
    ({ st with data := { st.data with notifications := r.1 } }, true, true)
  else
    ({ st with data := { st.data with notifications := r.1 } }, false, false)

/-! ## Derived predicates, spec-modelled definitions, concrete instances -/

/-- The per-record completion invariant: a record whose consumed attempts
have reached the effective repeat budget is `Done`. -/
def Inv (s : AppSchema) : Prop :=
  ∀ n ∈ s.notifications, effRepeat n ≤ n.sendsCount → n.status = statusDone

/-- Modelled from the spec: the effective repeat count resolves an unset
(zero) `repeatTimes` from the global default stored in `Settings`
("its own values, or the global defaults when unset").  Stated for
comparison with the source's `effRepeat`. -/
def effRepeatSpec (g : Settings) (n : Notification) : Int :=
  if n.repeatTimes = 0 then g.repeatTimes else n.repeatTimes

/-- Modelled from the spec: the effective interval is the notification's
own parseable interval, else the parsed global default from `Settings`.
Stated for comparison with the source's `effInterval`. -/
def effIntervalSpec (pd : ParseDur) (g : Settings) (n : Notification) : Int :=
  match pd n.repeatInterval with
  | some d => d
  | none =>
    match pd g.repeatInterval with
    | some d => d
    | none => 30 * nsMin

/-- A `ParseDuration` oracle that fails on every string. -/
def pdNone : ParseDur := fun _ => none

/-- A `ParseDuration` oracle for the strings used in concrete instances. -/
def pdTable : ParseDur := fun s =>
  if s = "30m" then some (30 * nsMin)
  else if s = "10m" then some (10 * nsMin)
  else if s = "5m" then some (5 * nsMin)
  else none

/-- A delivery port that always fails. -/
def sendFail : Notification → Bool := fun _ => false

/-- A delivery port that always succeeds. -/
def sendOk : Notification → Bool := fun _ => true

/-- A fresh store whose in-memory data was never loaded from disk. -/
def st0 : StoreState := StoreState.mk (AppSchema.mk defaultSettings []) 0

/-- Concrete instance: a pending notification two attempts in. -/
def n1w : Notification := Notification.mk "a" "hello" (120 * nsMin) statusPending 2 0 3 "5m"

/-- Concrete instance: a pending notification, first slot one minute
after the zero time, now long past. -/
def n3c : Notification := Notification.mk "n1" "hi" nsMin statusPending 0 0 3 "30m"

/-- Concrete instance: a schema with credentials and the past-due record. -/
def s3c : AppSchema := AppSchema.mk (Settings.mk "t" "u" 3 "30m" "") [n3c]

/-- Concrete instance: an exhausted Done record plus a fresh pending one. -/
def s4c : AppSchema := AppSchema.mk (Settings.mk "t" "u" 3 "30m" "")
  [Notification.mk "d1" "old" nsMin statusDone 3 (2 * nsMin) 3 "30m",
   Notification.mk "p1" "new" (500 * nsMin) statusPending 0 0 3 "30m"]

/-- Concrete instance: a legacy bare-list record with zero/empty repeat
fields. -/
def n5c : Notification := Notification.mk "a" "x" 0 statusPending 0 0 0 ""

/-- Concrete instance: a record visible only in the newer on-disk file. -/
def nx6 : Notification := Notification.mk "x" "m" 0 statusPending 0 0 3 "30m"

/-- Concrete instance: the newer on-disk schema containing `nx6`. -/
def a6 : AppSchema := AppSchema.mk (Settings.mk "t" "u" 3 "30m" "") [nx6]

/-- Concrete instance: a backing file newer (mtime 5) than `st0`'s last
load (0). -/
def d6 : Disk := Disk.file 5 false (some a6) none

/-- Concrete instance: settings whose global defaults (5, "10m") differ
from the worker's hardcoded fallbacks (3, 30m). -/
def g7 : Settings := Settings.mk "t" "u" 5 "10m" ""

/-- Concrete instance: a pending notification with unset repeat fields. -/
def n7 : Notification := Notification.mk "b" "m" nsMin statusPending 1 0 0 ""

/-- The id `"x"` of `nx6`. -/
def idX : String := "x"

/-! ## Helper lemmas -/

/-- A signed 64-bit value within range is unchanged by the wrap. -/
theorem wrap64_eq_of_bounds {x : Int} (h1 : -int64Half ≤ x) (h2 : x < int64Half) :
    wrap64 x = x := by
  unfold wrap64
  unfold int64Half at *
  unfold int64Size
  rw [Int.emod_eq_of_lt (by omega) (by omega)]
  omega

/-- Characterisation of the loop body on a due notification whose send
attempt fails: only `lastPushTime` changes, `saveNeeded` is set, and the
candidate is the anchored slot for the unchanged `sendsCount`. -/
theorem processOne_due_fail (pd : ParseDur) (send : Notification → Bool) (now : Int)
    (n : Notification) (hdue : ¬ now < nextSendTime pd n) (hfail : send n = false)
    (hcnt : n.sendsCount < effRepeat n) :
    processOne pd send now n =
      ProcResult.mk { n with lastPushTime := now } true
        (some (truncMin n.scheduledTime + durMul (effInterval pd n) n.sendsCount)) := by
  simp only [processOne, hfail]
  rw [if_neg hdue, if_pos hcnt]
  simp only [Bool.false_eq_true, if_false]
  rw [if_neg (by simpa using not_le.mpr hcnt)]
  simp [hcnt]

/-- The updated list produced by the pass is the element-wise image of the
loop body (Done records untouched). -/
theorem passList_fst (pd : ParseDur) (send : Notification → Bool) (now : Int)
    (ns : List Notification) : ∀ (d : Bool) (e : Int),
    (passList pd send now ns d e).1 =
      ns.map (fun n => if n.status ≠ statusDone then (processOne pd send now n).notif else n) := by
  induction ns with
  | nil => intro d e; rfl
  | cons n rest ih =>
    intro d e
    by_cases h : n.status = statusDone
    · simp only [passList, List.map, if_neg (not_not_intro h), ih]
    · simp only [passList, List.map, if_pos h, ih]

/-- The `saveNeeded` / `earliestNext` pair of the pass is computed from
the pending records alone: dropping the Done records changes nothing. -/
theorem passList_snd (pd : ParseDur) (send : Notification → Bool) (now : Int)
    (ns : List Notification) : ∀ (d : Bool) (e : Int),
    (passList pd send now ns d e).2 =
      (passList pd send now (ns.filter (fun n => decide (n.status ≠ statusDone))) d e).2 := by
  induction ns with
  | nil => intro d e; rfl
  | cons n rest ih =>
    intro d e
    by_cases h : n.status = statusDone
    · rw [List.filter_cons_of_neg (by simp [h])]
      simp only [passList, if_neg (not_not_intro h)]
      exact ih d e
    · rw [List.filter_cons_of_pos (by simp [h])]
      simp only [passList, if_pos h]
      exact ih _ _

/-- One loop-body step preserves the per-record completion invariant. -/
theorem step_preserves_inv (pd : ParseDur) (send : Notification → Bool) (now : Int)
    (n : Notification) (h : effRepeat n ≤ n.sendsCount → n.status = statusDone) :
    effRepeat (if n.status ≠ statusDone then (processOne pd send now n).notif else n) ≤
      (if n.status ≠ statusDone then (processOne pd send now n).notif else n).sendsCount →
    (if n.status ≠ statusDone then (processOne pd send now n).notif else n).status = statusDone := by
  by_cases hs : n.status = statusDone
  · rw [if_neg (not_not_intro hs)]
    intro _
    exact hs
  · rw [if_pos hs]
    have hc : n.sendsCount < effRepeat n := lt_of_not_le (fun hle => hs (h hle))
    simp only [processOne]
    by_cases hdue : now < nextSendTime pd n
    · rw [if_pos hdue]
      intro hle
      exact absurd hle (not_le.mpr hc)
    · rw [if_neg hdue]
      simp only [if_pos hc]
      by_cases hsend : send n = true
      · simp only [hsend, if_true]
        by_cases hR : effRepeat n ≤ n.sendsCount + 1
        · rw [if_pos (by simpa using hR)]
          intro _
          rfl
        · rw [if_neg (by simpa using hR)]
          intro hle
          exact absurd (by simpa [effRepeat] using hle) hR
      · simp only [Bool.not_eq_true] at hsend
        simp only [hsend, Bool.false_eq_true, if_false]
        rw [if_neg (by simpa using not_le.mpr hc)]
        intro hle
        exact absurd (by simpa [effRepeat] using hle) (not_le.mpr hc)

/-- A list with no matching id passes through the replacement loop
unchanged and unfound. -/
theorem replaceById_absent (u : Notification) (l : List Notification)
    (h : ∀ n ∈ l, ¬ n.id = u.id) : replaceById l u = (l, false) := by
  induction l with
  | nil => rfl
  | cons n rest ih =>
    simp only [replaceById]
    rw [if_neg (by simpa using h n (by simp))]
    rw [ih (fun m hm => h m (by simp [hm]))]

/-- A list with no matching id passes through the removal loop unchanged
and unfound. -/
theorem removeById_absent (i : String) (l : List Notification)
    (h : ∀ n ∈ l, ¬ n.id = i) : removeById l i = (l, false) := by
  induction l with
  | nil => rfl
  | cons n rest ih =>
    simp only [removeById]
    rw [if_neg (by simpa using h n (by simp))]
    rw [ih (fun m hm => h m (by simp [hm]))]

/-- An occupied wake slot absorbs further `Refresh` calls. -/
theorem refreshN_true : ∀ k : Nat, refreshN k true = true
  | 0 => rfl
  | Nat.succ k => refreshN_true k

/-! ## Claim theorems -/

/-- C1: for a Pending notification with effective repeat interval `I` and
0-indexed attempt number `k = sendsCount`, the due instant computed by the
worker is exactly `scheduledTime` truncated to the minute plus `I * k`
(given that the `int64` duration product does not overflow), and it is
independent of `lastPushTime`, i.e. of when any earlier delivery actually
occurred. -/
theorem c1_anchored_slot (pd : ParseDur) (n : Notification)
    (_hp : n.status ≠ statusDone)
    (h1 : -int64Half ≤ effInterval pd n * n.sendsCount)
    (h2 : effInterval pd n * n.sendsCount < int64Half) :
    nextSendTime pd n = truncMin n.scheduledTime + effInterval pd n * n.sendsCount ∧
    ∀ t : Int, nextSendTime pd { n with lastPushTime := t } = nextSendTime pd n := by
  constructor
  · unfold nextSendTime
    by_cases h0 : n.sendsCount = 0
    · rw [if_pos h0, h0]
      ring
    · rw [if_neg h0]
      unfold durMul
      rw [wrap64_eq_of_bounds h1 h2]
  · intro t
    rfl

/-- Witness for C1 at the concrete record `n1w` (attempt 2, interval 5m). -/
theorem c1_anchored_slot_witness :
    (n1w.status ≠ statusDone ∧ -int64Half ≤ effInterval pdTable n1w * n1w.sendsCount ∧
      effInterval pdTable n1w * n1w.sendsCount < int64Half) ∧
    nextSendTime pdTable n1w = truncMin n1w.scheduledTime + effInterval pdTable n1w * n1w.sendsCount ∧
    nextSendTime pdTable { n1w with lastPushTime := 77 } = nextSendTime pdTable n1w := by
  have h := c1_anchored_slot pdTable n1w (by decide) (by decide) (by decide)
  exact ⟨⟨by decide, by decide, by decide⟩, h.1, h.2 77⟩

/-- C2: when the delivery port fails for a due pending notification, the
evaluation pass leaves its `sendsCount` and `status` unchanged, sets its
`lastPushTime` to the current time, and a later pass (at any `now2 ≥ now`)
still finds the very same anchored slot due. -/
theorem c2_failed_attempt (pd : ParseDur) (send : Notification → Bool) (now : Int)
    (s : AppSchema) (n : Notification)
    (htok : ¬ s.settings.pushoverToken = "") (husr : ¬ s.settings.pushoverUser = "")
    (hmem : n ∈ s.notifications) (hp : n.status ≠ statusDone)
    (hdue : ¬ now < nextSendTime pd n) (hfail : send n = false)
    (hcnt : n.sendsCount < effRepeat n) :
    { n with lastPushTime := now } ∈ (checkAndProcess pd send now s).1.notifications ∧
    ({ n with lastPushTime := now } : Notification).sendsCount = n.sendsCount ∧
    ({ n with lastPushTime := now } : Notification).status = n.status ∧
    nextSendTime pd { n with lastPushTime := now } = nextSendTime pd n ∧
    ∀ now2 : Int, now ≤ now2 → ¬ now2 < nextSendTime pd { n with lastPushTime := now } := by
  have hstep : (fun m => if m.status ≠ statusDone then (processOne pd send now m).notif else m) n =
      { n with lastPushTime := now } := by
    simp only
    rw [if_pos hp, processOne_due_fail pd send now n hdue hfail hcnt]
  refine ⟨?_, rfl, rfl, rfl, ?_⟩
  · unfold checkAndProcess
    rw [if_neg (by push_neg; exact ⟨htok, husr⟩)]
    simp only
    rw [passList_fst]
    exact hstep ▸ List.mem_map_of_mem _ hmem
  · intro now2 hle hlt
    have : now < nextSendTime pd n := lt_of_le_of_lt hle hlt
    exact hdue this

/-- Witness for C2: a past-due record in a credentialed schema with an
always-failing delivery port. -/
theorem c2_failed_attempt_witness :
    ({ n3c with lastPushTime := 100 * nsMin } ∈
      (checkAndProcess pdTable sendFail (100 * nsMin) s3c).1.notifications ∧
     ({ n3c with lastPushTime := 100 * nsMin } : Notification).sendsCount = n3c.sendsCount ∧
     ({ n3c with lastPushTime := 100 * nsMin } : Notification).status = n3c.status ∧
     nextSendTime pdTable { n3c with lastPushTime := 100 * nsMin } = nextSendTime pdTable n3c ∧
     ¬ (101 * nsMin : Int) < nextSendTime pdTable { n3c with lastPushTime := 100 * nsMin }) := by
  have h := c2_failed_attempt pdTable sendFail (100 * nsMin) s3c n3c
    (by decide) (by decide) (by simp [s3c]) (by decide) (by decide) (by decide) (by decide)
  exact ⟨h.1, h.2.1, h.2.2.1, h.2.2.2.1, h.2.2.2.2 (101 * nsMin) (by decide)⟩

/-- C3: evaluation of the code at the failing input.  With a past-due
slot (one minute after the zero time) and an always-failing delivery
port, the pass's returned next-wake instant is that same past-due slot,
so `Start` arms a zero-duration timer (`some 0`), and the immediately
following pass returns the same past-due slot again: the engine loops on
the failed slot instead of abandoning it until the next natural wake —
setting `lastPushTime` on failure does not prevent the retry storm,
because the anchored due-check never reads `lastPushTime`. -/
theorem c3_retry_storm :
    (checkAndProcess pdTable sendFail (100 * nsMin) s3c).2.2 = nsMin ∧
    armDuration (checkAndProcess pdTable sendFail (100 * nsMin) s3c).2.2 (100 * nsMin) = some 0 ∧
    (checkAndProcess pdTable sendFail (100 * nsMin) s3c).1.notifications =
      [{ n3c with lastPushTime := 100 * nsMin }] ∧
    (checkAndProcess pdTable sendFail (100 * nsMin)
        (checkAndProcess pdTable sendFail (100 * nsMin) s3c).1).2.2 = nsMin ∧
    armDuration (checkAndProcess pdTable sendFail (100 * nsMin)
        (checkAndProcess pdTable sendFail (100 * nsMin) s3c).1).2.2 (100 * nsMin) = some 0 := by
  decide

/-- C4: under the completion invariant (every record whose consumed
attempts reached its effective repeat budget is `Done`), an evaluation
pass preserves the invariant; each such record is `Done`, hence excluded
from the `GetPending` due-evaluation; and the pass's `saveNeeded` /
next-wake pair is computed from the pending records alone, so Done
records contribute no candidate. -/
theorem c4_done_invariant (pd : ParseDur) (send : Notification → Bool) (now : Int)
    (s : AppSchema) (h : Inv s) :
    Inv (checkAndProcess pd send now s).1 ∧
    (∀ n ∈ s.notifications, effRepeat n ≤ n.sendsCount →
      n.status = statusDone ∧ n ∉ pendingOf s) ∧
    (passList pd send now s.notifications false 0).2 =
      (passList pd send now (pendingOf s) false 0).2 := by
  refine ⟨?_, ?_, ?_⟩
  · unfold checkAndProcess
    by_cases hcred : s.settings.pushoverToken = "" ∨ s.settings.pushoverUser = ""
    · rw [if_pos hcred]
      exact h
    · rw [if_neg hcred]
      unfold Inv
      intro n' hn'
      simp only at hn'
      rw [passList_fst] at hn'
      obtain ⟨n, hn, rfl⟩ := List.mem_map.1 hn'
      exact step_preserves_inv pd send now n (h n hn)
  · intro n hn hge
    refine ⟨h n hn hge, ?_⟩
    intro hmem
    rw [pendingOf, List.mem_filter] at hmem
    have h2 := hmem.2
    simp [h n hn hge] at h2
  · exact passList_snd pd send now s.notifications false 0

/-- Witness for C4 on a schema with one exhausted Done record and one
fresh pending record. -/
theorem c4_done_invariant_witness :
    Inv s4c ∧ Inv (checkAndProcess pdTable sendOk (2 * nsMin) s4c).1 ∧
    (passList pdTable sendOk (2 * nsMin) s4c.notifications false 0).2 =
      (passList pdTable sendOk (2 * nsMin) (pendingOf s4c) false 0).2 := by
  have hInv : Inv s4c := by
    unfold Inv
    decide
  have h := c4_done_invariant pdTable sendOk (2 * nsMin) s4c hInv
  exact ⟨hInv, h.1, h.2.2⟩

/-- C5 counterexample: loading a file that parses only as a legacy bare
list succeeds, yet the loaded notification keeps `repeatTimes = 0` and
`repeatInterval = ""` — the fallback path returns before the backfill
block, refuting "after any successful load, every Notification has
non-zero repeatTimes and non-empty repeatInterval". -/
theorem c5_counterexample :
    (loadStore st0 (Disk.file 1 false none (some [n5c]))).2 = true ∧
    ¬ (∀ n ∈ (loadStore st0 (Disk.file 1 false none (some [n5c]))).1.data.notifications,
        ¬ n.repeatTimes = 0 ∧ ¬ n.repeatInterval = "") := by
  decide

/-- C5 amended: after a load that succeeds via the normal `AppSchema`
parse, every notification has non-zero `repeatTimes` and non-empty
`repeatInterval`, backfilled from the effective defaults; a load that
succeeds via the legacy bare-list fallback wraps the list with the
default settings but leaves the notifications themselves unbackfilled. -/
theorem c5_amended_backfill (st : StoreState) (m : Int) (a : AppSchema)
    (lst : Option (List Notification)) (l : List Notification) :
    ((loadStore st (Disk.file m false (some a) lst)).2 = true ∧
      ∀ n ∈ (loadStore st (Disk.file m false (some a) lst)).1.data.notifications,
        ¬ n.repeatTimes = 0 ∧ ¬ n.repeatInterval = "") ∧
    (loadStore st (Disk.file m false none (some l))).1.data =
      AppSchema.mk defaultSettings l := by
  refine ⟨⟨rfl, ?_⟩, rfl⟩
  intro n hn
  simp only [loadStore, backfill] at hn
  obtain ⟨n0, hmem, hEq⟩ := List.mem_map.1 hn
  rw [← hEq]
  simp only
  constructor
  · by_cases h0 : n0.repeatTimes = 0
    · simp only [h0, if_true]
      by_cases hs : a.settings.repeatTimes = 0 <;> simp [hs]
    · simp [h0]
  · by_cases h0 : n0.repeatInterval = ""
    · simp only [h0, if_true]
      by_cases hs : a.settings.repeatInterval = "" <;> simp [hs]
    · simp [h0]

/-- Witness for C5 amended: the schema-parse path backfills `n5c` (zero
repeat fields) from the defaults, and the fallback path wraps `[n5c]`
with the default settings. -/
theorem c5_amended_backfill_witness :
    (loadStore st0 (Disk.file 2 false (some (AppSchema.mk g7 [n5c])) none)).2 = true ∧
    (∀ n ∈ (loadStore st0 (Disk.file 2 false (some (AppSchema.mk g7 [n5c])) none)).1.data.notifications,
        ¬ n.repeatTimes = 0 ∧ ¬ n.repeatInterval = "") ∧
    (loadStore st0 (Disk.file 2 false none (some [n5c]))).1.data =
      AppSchema.mk defaultSettings [n5c] := by
  have h := c5_amended_backfill st0 2 (AppSchema.mk g7 [n5c]) none [n5c]
  exact ⟨h.1.1, h.1.2, h.2⟩

/-- C6 counterexample: the backing file (`d6`, mtime 5) is newer than the
store's last load (0) and contains the record `nx6`, yet `GetNotification`
returns not-found and leaves the state untouched, while the disk-change
check the other accessors perform would have surfaced the record —
refuting "every read accessor begins by comparing the file's modification
time and reloads if newer". -/
theorem c6_counterexample :
    getNotification st0 d6 idX = (st0, none) ∧
    st0.lastLoadedTime < 5 ∧
    (getNotification (checkDiskChanges st0 d6) d6 idX).2 ≠ none ∧
    (getPending st0 d6).1.lastLoadedTime = 5 := by
  decide

/-- C6 amended: `GetSettings`, `GetAllNotifications` and `GetPending`
begin with the disk-change check and reload when the backing file is
newer than the last load/save; `GetNotification` performs no such check —
it ignores the disk entirely and leaves the store state unchanged. -/
theorem c6_amended_accessors (st : StoreState) (m : Int) (e : Bool)
    (sch : Option AppSchema) (lst : Option (List Notification))
    (h : st.lastLoadedTime < m) :
    (getSettings st (Disk.file m e sch lst)).1 = (loadStore st (Disk.file m e sch lst)).1 ∧
    (getAllNotifications st (Disk.file m e sch lst)).1 = (loadStore st (Disk.file m e sch lst)).1 ∧
    (getPending st (Disk.file m e sch lst)).1 = (loadStore st (Disk.file m e sch lst)).1 ∧
    ∀ (d d2 : Disk) (i : String), getNotification st d i = getNotification st d2 i ∧
      (getNotification st d i).1 = st := by
  refine ⟨?_, ?_, ?_, fun d d2 i => ⟨rfl, rfl⟩⟩
  all_goals
    simp [getSettings, getAllNotifications, getPending, checkDiskChanges, if_pos h]

/-- Witness for C6 amended at the concrete store `st0` and disk `d6`. -/
theorem c6_amended_accessors_witness :
    st0.lastLoadedTime < 5 ∧
    (getPending st0 d6).1 = (loadStore st0 d6).1 ∧
    (getNotification st0 d6 idX).1 = st0 := by
  have h := c6_amended_accessors st0 5 false (some a6) none (by decide)
  exact ⟨by decide, h.2.2.1, (h.2.2.2 d6 Disk.absent idX).2⟩

/-- C7 counterexample: for a pending notification with unset repeat
fields, the engine's effective values are the hardcoded fallbacks 3 and
30 minutes, not the global defaults stored in Settings (5 and 10
minutes): the resolution the claim describes (`effRepeatSpec` /
`effIntervalSpec`, modelled from the spec's words) disagrees with the
code, and the computed anchored slot uses the 30-minute constant. -/
theorem c7_counterexample :
    effRepeat n7 = 3 ∧ effRepeatSpec g7 n7 = 5 ∧
    effInterval pdTable n7 = 30 * nsMin ∧ effIntervalSpec pdTable g7 n7 = 10 * nsMin ∧
    nextSendTime pdTable n7 = nsMin + 30 * nsMin ∧
    ¬ effRepeat n7 = effRepeatSpec g7 n7 ∧
    ¬ effInterval pdTable n7 = effIntervalSpec pdTable g7 n7 := by
  decide

/-- C7 amended: when a Pending notification's `repeatTimes` is zero or
its `repeatInterval` unparseable, the engine falls back to the fixed
constants 3 and 30 minutes; the Settings defaults play no role in the
evaluation pass — its outcome (updated records, `saveNeeded`, next wake)
is invariant under any change of the `repeatTimes` / `repeatInterval`
fields of Settings. -/
theorem c7_amended_constants (pd : ParseDur) (send : Notification → Bool) (now : Int)
    (s : AppSchema) (a : Int) (b : String) :
    (checkAndProcess pd send now
        (AppSchema.mk
          (Settings.mk s.settings.pushoverToken s.settings.pushoverUser a b s.settings.password)
          s.notifications)).1.notifications =
      (checkAndProcess pd send now s).1.notifications ∧
    (checkAndProcess pd send now
        (AppSchema.mk
          (Settings.mk s.settings.pushoverToken s.settings.pushoverUser a b s.settings.password)
          s.notifications)).2 =
      (checkAndProcess pd send now s).2 := by
  unfold checkAndProcess
  by_cases h : s.settings.pushoverToken = "" ∨ s.settings.pushoverUser = ""
  · rw [if_pos h, if_pos h]
    exact ⟨rfl, rfl⟩
  · rw [if_neg h, if_neg h]
    exact ⟨rfl, rfl⟩

/-- C8: `Load` on a missing or empty file succeeds with an empty list and
default settings (`repeatTimes = 3`, `repeatInterval = "30m"`); content
that parses as an `AppSchema` succeeds; content that does not parse as an
`AppSchema` but parses as a bare notification list succeeds wrapped with
those default settings; only when both parses fail does `Load` return an
error. -/
theorem c8_load_fallback :
    (∀ st : StoreState, loadStore st Disk.absent =
      ({ st with data := AppSchema.mk defaultSettings [] }, true)) ∧
    (∀ (st : StoreState) (m : Int) (sch : Option AppSchema) (lst : Option (List Notification)),
      loadStore st (Disk.file m true sch lst) =
        ({ st with lastLoadedTime := m, data := AppSchema.mk defaultSettings [] }, true)) ∧
    (∀ (st : StoreState) (m : Int) (a : AppSchema) (lst : Option (List Notification)),
      (loadStore st (Disk.file m false (some a) lst)).2 = true) ∧
    (∀ (st : StoreState) (m : Int) (l : List Notification),
      loadStore st (Disk.file m false none (some l)) =
        ({ st with lastLoadedTime := m, data := AppSchema.mk defaultSettings l }, true)) ∧
    (∀ (st : StoreState) (m : Int),
      loadStore st (Disk.file m false none none) = ({ st with lastLoadedTime := m }, false)) ∧
    defaultSettings.repeatTimes = 3 ∧ defaultSettings.repeatInterval = "30m" :=
  ⟨fun _ => rfl, fun _ _ _ _ => rfl, fun _ _ _ _ => rfl, fun _ _ _ => rfl,
    fun _ _ => rfl, rfl, rfl⟩

/-- C9: the wake channel is single-slot, non-blocking and coalescing —
`Refresh` is total and on an occupied slot the `select` takes the
`default` branch leaving the slot occupied (`refreshChan true = true`,
the caller never blocks); any `N ≥ 1` calls between two loop inspections
leave exactly one pending signal, so the loop re-evaluates exactly once;
and from any channel state at most one wake is consumed. -/
theorem c9_refresh_coalesces (N : Nat) (h : 1 ≤ N) (s : Bool) :
    refreshN N false = true ∧ wakeCount (refreshN N false) = 1 ∧
    refreshChan true = true ∧ wakeCount (refreshN N s) ≤ 1 := by
  obtain ⟨k, rfl⟩ : ∃ k, N = k + 1 := ⟨N - 1, by omega⟩
  refine ⟨?_, ?_, rfl, ?_⟩
  · show refreshN k (refreshChan false) = true
    exact refreshN_true k
  · show wakeCount (refreshN k (refreshChan false)) = 1
    rw [show refreshChan false = true from rfl, refreshN_true k]
    rfl
  · cases hr : refreshN (k + 1) s <;> simp [wakeCount]

/-- Witness for C9 at `N = 5` from both an empty and an occupied slot. -/
theorem c9_refresh_coalesces_witness :
    (1 : Nat) ≤ 5 ∧ refreshN 5 false = true ∧ wakeCount (refreshN 5 false) = 1 ∧
    refreshChan true = true ∧ wakeCount (refreshN 5 true) ≤ 1 := by
  have h := c9_refresh_coalesces 5 (by decide) true
  exact ⟨by decide, h.1, h.2.1, h.2.2.1, h.2.2.2⟩

/-- C10: when no stored record has the target id, `UpdateNotification`
and `DeleteNotification` report the not-found error, leave the in-memory
list unchanged, and do not invoke `Save`, so the backing file is
untouched. -/
theorem c10_notfound_unchanged (st : StoreState) (u : Notification) (i : String)
    (h1 : ∀ n ∈ st.data.notifications, ¬ n.id = u.id)
    (h2 : ∀ n ∈ st.data.notifications, ¬ n.id = i) :
    updateNotification st u = (st, false, false) ∧
    deleteNotification st i = (st, false, false) := by
  constructor
  · unfold updateNotification
    rw [replaceById_absent u _ h1]
    rfl
  · unfold deleteNotification
    rw [removeById_absent i _ h2]
    rfl

/-- Witness for C10: updating/deleting id `"x"` in a store holding only
ids `"a"` / `"b"`. -/
theorem c10_notfound_unchanged_witness :
    updateNotification (StoreState.mk s4c 0) nx6 = (StoreState.mk s4c 0, false, false) ∧
    deleteNotification (StoreState.mk s4c 0) idX = (StoreState.mk s4c 0, false, false) :=
  c10_notfound_unchanged (StoreState.mk s4c 0) nx6 idX (by decide) (by decide)

end PushoverNotify
